import Mathlib

/-!
Verification of the septagon scene core of this repository
(`src/components/Septagon3D.tsx`): the polygon face-placement geometry,
the radial slide animator driven from the per-frame callback, and the
clock display formatting contract.

The animator arithmetic (linear interpolation with an unclamped factor)
is embedded over `ℚ`, since the source computes it with plain `+`, `-`,
`*`.  The geometry (angles, chord widths, positions) uses `Real.pi`,
`Real.sin`, `Real.cos` and `Real.sqrt` over `ℝ`, exactly as the source
uses `Math.PI`, `Math.sin`, `Math.cos` and `Math.sqrt`.
-/

namespace Septagon3D

/-- `THREE.MathUtils.lerp(x, y, t) = (1 - t) * x + t * y`, the linear
interpolation used by the per-frame callback.  The factor `t` is not
clamped. -/
def lerp (x y t : ℚ) : ℚ := (1 - t) * x + t * y

/-- The per-frame advance of the tray distance (source lines 110-122):
`newDist = lerp(currentDist, targetDist, delta * 8)`.  The rate `8` is
hard-coded in the source; it is kept as a parameter here so that the
spec-level statements about an arbitrary positive rate can be expressed,
with the source instantiating `rate := 8`. -/
def advance (currentDistance targetDistance elapsedSeconds rate : ℚ) : ℚ :=
  lerp currentDistance targetDistance (elapsedSeconds * rate)

/-- `n` successive `advance` calls with a fixed target, per-call elapsed
time and rate. -/
def advanceIter : ℕ → ℚ → ℚ → ℚ → ℚ → ℚ
  | 0, c, _, _, _ => c
  | n + 1, c, t, e, r => advanceIter n (advance c t e r) t e r

/-- Modelled from the spec: the exponential-smoothing form of `advance`
(`newDistance = lerp(currentDistance, targetDistance,
1 - exp(-rate * elapsedSeconds))`), stated in the spec as the
frame-rate-independent variant.  It is not what the source implements;
it is defined here to compare the source's behaviour against it. -/
noncomputable def advanceExp (currentDistance targetDistance elapsedSeconds rate : ℝ) : ℝ :=
  (1 - (1 - Real.exp (-(rate * elapsedSeconds)))) * currentDistance +
    (1 - Real.exp (-(rate * elapsedSeconds))) * targetDistance

/-- `n` successive `advanceExp` calls with a fixed target, per-call
elapsed time and rate. -/
noncomputable def advanceExpIter : ℕ → ℝ → ℝ → ℝ → ℝ → ℝ
  | 0, c, _, _, _ => c
  | n + 1, c, t, e, r => advanceExpIter n (advanceExp c t e r) t e r

theorem advanceExpIter_zero (c t e r : ℝ) : advanceExpIter 0 c t e r = c := rfl

theorem advanceExpIter_succ (n : ℕ) (c t e r : ℝ) :
    advanceExpIter (n + 1) c t e r = advanceExpIter n (advanceExp c t e r) t e r := rfl

theorem advanceExp_closed_form (c t e r : ℝ) :
    advanceExp c t e r = t + (c - t) * Real.exp (-(r * e)) := by
  unfold advanceExp; ring

theorem advanceExp_comp (c t r e₁ e₂ : ℝ) :
    advanceExp (advanceExp c t e₁ r) t e₂ r = advanceExp c t (e₁ + e₂) r := by
  rw [advanceExp_closed_form, advanceExp_closed_form, advanceExp_closed_form]
  have h : Real.exp (-(r * (e₁ + e₂))) =
      Real.exp (-(r * e₁)) * Real.exp (-(r * e₂)) := by
    rw [← Real.exp_add]; ring_nf
  rw [h]; ring

/-- C1 counterexample: the per-frame advance the source implements is not
frame-rate independent.  With gap `1` (current `0`, target `1`) and rate
`8`, ten advances of `0.1` seconds land at `1 - (1/5)^10`, while one
advance of `1.0` seconds lands at `8` — the two trajectories differ by
more than `7` over the same wall-clock second. -/
theorem advance_frame_rate_dependent_cex :
    advanceIter 10 0 1 (1/10) 8 = 9765624 / 9765625 ∧
    advance 0 1 1 8 = 8 ∧
    7 < |advance 0 1 1 8 - advanceIter 10 0 1 (1/10) 8| := by
  have h1 : advanceIter 10 0 1 (1/10) 8 = 9765624 / 9765625 := by
    norm_num [advanceIter, advance, lerp]
  have h2 : advance 0 1 1 8 = 8 := by norm_num [advance, lerp]
  refine ⟨h1, h2, ?_⟩
  rw [h1, h2, abs_of_pos (by norm_num)]
  norm_num

/-- C1 (amended): the source's `advance` (factor `rate * elapsedSeconds`)
is frame-rate dependent; the frame-rate-independence contract holds
exactly for the spec's exponential-smoothing form, under which `n` calls
of `elapsedSeconds = e` coincide with a single call of `n * e` — so ten
`0.1 s` steps equal one `1.0 s` step, and halving the per-call elapsed
time while doubling the call count leaves the trajectory unchanged. -/
theorem advanceExp_frame_rate_independent (n : ℕ) (c t e r : ℝ) :
    advanceExpIter n c t e r = advanceExp c t (n * e) r := by
  induction n generalizing c with
  | zero =>
      rw [advanceExpIter_zero, advanceExp_closed_form]
      push_cast
      rw [show -(r * (0 * e)) = 0 by ring, Real.exp_zero]
      ring
  | succ m ih =>
      rw [advanceExpIter_succ, ih, advanceExp_comp]
      have h : e + (m : ℝ) * e = ((m + 1 : ℕ) : ℝ) * e := by push_cast; ring
      rw [h]

/-- C2 counterexample: with positive rate `8` and positive elapsed time
`0.3 s` (so factor `2.4 > 2`), a single advance from `0` toward target
`1` overshoots to `2.4`, growing the gap from `1` to `1.4`. -/
theorem advance_gap_grows_cex :
    (0 : ℚ) < 8 ∧ (0 : ℚ) < 3/10 ∧
    |(0 : ℚ) - 1| < |advance 0 1 (3/10) 8 - 1| := by
  have h : advance 0 1 (3/10) 8 = 12/5 := by norm_num [advance, lerp]
  refine ⟨by norm_num, by norm_num, ?_⟩
  rw [h]
  rw [abs_of_neg (by norm_num), abs_of_pos (by norm_num)]
  norm_num

/-- C2 (amended): the gap `|currentDistance - target|` is non-increasing
across an `advance` call exactly when the interpolation factor
`elapsedSeconds * rate` lies in `[0, 2]`; for factors above `2` the
overshoot grows the gap. -/
theorem advance_gap_nonincreasing (c t e r : ℚ)
    (h0 : 0 ≤ e * r) (h2 : e * r ≤ 2) :
    |advance c t e r - t| ≤ |c - t| := by
  have key : advance c t e r - t = (c - t) * (1 - e * r) := by
    unfold advance lerp; ring
  rw [key, abs_mul]
  have h1 : |1 - e * r| ≤ 1 := abs_le.2 ⟨by linarith, by linarith⟩
  calc |c - t| * |1 - e * r| ≤ |c - t| * 1 :=
        mul_le_mul_of_nonneg_left h1 (abs_nonneg _)
    _ = |c - t| := mul_one _

/-- Witness for `advance_gap_nonincreasing` at current `0`, target `1`,
elapsed `0.1 s`, rate `8` (factor `0.8 ∈ [0, 2]`). -/
theorem advance_gap_nonincreasing_witness :
    ((0 : ℚ) ≤ (1/10) * 8 ∧ (1/10 : ℚ) * 8 ≤ 2) ∧
    |advance 0 1 (1/10) 8 - 1| ≤ |(0 : ℚ) - 1| :=
  ⟨⟨by norm_num, by norm_num⟩,
    advance_gap_nonincreasing 0 1 (1/10) 8 (by norm_num) (by norm_num)⟩

/-- The tray's slide state (spec data model; the source keeps `isOpen` in
component state and the distance in the rendered position). -/
structure SlideState where
  faceIndex : ℕ
  closedDistance : ℚ
  openDistance : ℚ
  isOpen : Bool
  currentDistance : ℚ
  deriving DecidableEq

/-- The click handler (source lines 129-132): `setIsOpen(!isOpen)` — it
flips the flag and touches nothing else; in particular the rendered
position, hence `currentDistance`, is left as it is. -/
def toggleOpen (st : SlideState) : SlideState := { st with isOpen := !st.isOpen }

/-- The target selection of the per-frame callback (source line 112):
`targetDist = isOpen ? openDist : closedDist`. -/
def targetDistance (st : SlideState) : ℚ :=
  if st.isOpen then st.openDistance else st.closedDistance

/-- C7: toggling twice restores the whole state (in particular `isOpen`),
and a single toggle leaves `currentDistance` exactly unchanged — only
subsequent `advance` calls move the distance, so motion resumes from
wherever the tray currently is. -/
theorem toggleOpen_involutive (st : SlideState) :
    toggleOpen (toggleOpen st) = st ∧
    (toggleOpen st).currentDistance = st.currentDistance := by
  cases st with
  | mk f c o i d => refine ⟨?_, rfl⟩; simp [toggleOpen]

/-- `const angleStep = (Math.PI * 2) / segments` (source lines 38 and 89). -/
noncomputable def angleStep (segments : ℕ) : ℝ := Real.pi * 2 / segments

/-- `const faceAngle = angleStep * (index + 0.5)` (source lines 39 and 90):
the center angle of face `faceIndex`.  The source performs no range check
on the index. -/
noncomputable def faceCenterAngle (segments : ℕ) (index : ℕ) : ℝ :=
  angleStep segments * (index + 0.5)

/-- The chord length between two adjacent polygon vertices at a given
radius: `2 * radius * Math.sin(angleStep / 2)` (the sub-expression of
source line 99). -/
noncomputable def chordWidthAtRadius (radius : ℝ) (segments : ℕ) : ℝ :=
  2 * radius * Real.sin (angleStep segments / 2)

/-- The tray width (source line 99):
`2 * innerRadius * Math.sin(angleStep / 2) - 0.15` — the chord at the
inner radius minus a `0.15` clearance margin. -/
noncomputable def trayWidth (innerRadius : ℝ) (segments : ℕ) : ℝ :=
  chordWidthAtRadius innerRadius segments - 0.15

/-- C5: the face-center angle is `(faceIndex + 0.5) * (2π / segmentCount)`
for every in-range index of a polygon with at least three sides, and in
particular `faceCenterAngle 7 3 = 3.5 * (2π/7) = π`. -/
theorem faceCenterAngle_formula (n i : ℕ) (hn : 3 ≤ n) (hi : i < n) :
    faceCenterAngle n i = (i + 0.5) * (2 * Real.pi / n) ∧
    faceCenterAngle 7 3 = Real.pi := by
  constructor
  · unfold faceCenterAngle angleStep; ring
  · unfold faceCenterAngle angleStep
    norm_num
    ring

/-- Witness for `faceCenterAngle_formula` at `segmentCount = 7`,
`faceIndex = 3`. -/
theorem faceCenterAngle_formula_witness :
    ((3 : ℕ) ≤ 7 ∧ (3 : ℕ) < 7) ∧
    (faceCenterAngle 7 3 = ((3 : ℕ) + 0.5) * (2 * Real.pi / (7 : ℕ)) ∧
      faceCenterAngle 7 3 = Real.pi) :=
  ⟨⟨by decide, by decide⟩, faceCenterAngle_formula 7 3 (by decide) (by decide)⟩

/-- C3 counterexample: at `segmentCount = 7` the out-of-range index `7`
does not fail — the source computes the angle `7.5 * (2π/7) = 15π/7`
silently, a direction beyond a full turn. -/
theorem faceCenterAngle_out_of_range_cex :
    faceCenterAngle 7 7 = 15 / 7 * Real.pi ∧
    2 * Real.pi < faceCenterAngle 7 7 := by
  have h1 : faceCenterAngle 7 7 = 15 / 7 * Real.pi := by
    unfold faceCenterAngle angleStep
    norm_num
    ring
  refine ⟨h1, ?_⟩
  rw [h1]
  nlinarith [Real.pi_pos]

/-- C3 (amended): `faceCenterAngle` performs no range check — it is a
total function returning `(faceIndex + 0.5) * (2π / segmentCount)` for
any index, so an index `≥ segmentCount` silently produces an angle
beyond a full turn (greater than `2π`) instead of a range error, a wrap,
or a clamp. -/
theorem faceCenterAngle_no_range_check (n i : ℕ) (hn : 3 ≤ n) (hi : n ≤ i) :
    2 * Real.pi < faceCenterAngle n i := by
  unfold faceCenterAngle angleStep
  have hn0 : (0 : ℝ) < n := by
    have : (3 : ℝ) ≤ n := by exact_mod_cast hn
    linarith
  have hi0 : (n : ℝ) ≤ i := by exact_mod_cast hi
  have key : Real.pi * 2 / n * (i + 0.5) - 2 * Real.pi =
      2 * Real.pi * ((i + 0.5 - n) / n) := by
    field_simp
    ring
  have hfrac : 0 < ((i : ℝ) + 0.5 - n) / n := by
    apply div_pos _ hn0
    linarith
  nlinarith [Real.pi_pos]

/-- Witness for `faceCenterAngle_no_range_check` at `segmentCount = 7`,
`faceIndex = 7`. -/
theorem faceCenterAngle_no_range_check_witness :
    ((3 : ℕ) ≤ 7 ∧ (7 : ℕ) ≤ 7) ∧ 2 * Real.pi < faceCenterAngle 7 7 :=
  ⟨⟨by decide, by decide⟩, faceCenterAngle_no_range_check 7 7 (by decide) (by decide)⟩

/-- The polygon configuration record of the spec's data model.  The
source binds the corresponding constants directly
(`radius = 3`, `height = 1.5`, `segments = 7`, `innerRadius = 1.2`,
source lines 169-177). -/
structure PolygonSpec where
  segmentCount : ℕ
  outerRadius : ℚ
  innerRadius : ℚ
  caseHeight : ℚ
  deriving DecidableEq

/-- Construction as the source performs it: the values are bound with no
validation of any kind, so construction always succeeds. -/
def mkPolygonSpec (segmentCount : ℕ) (outerRadius innerRadius caseHeight : ℚ) :
    PolygonSpec :=
  ⟨segmentCount, outerRadius, innerRadius, caseHeight⟩

/-- The one polygon configuration the repository instantiates
(source lines 171-174). -/
def septagonCaseSpec : PolygonSpec := mkPolygonSpec 7 3 (6/5) (3/2)

/-- Modelled from the spec: a validating constructor that rejects
`segmentCount < 3`, non-positive radii/height and
`innerRadius ≥ outerRadius` with a configuration error (`none`).  The
source contains no such validation; this definition exists to compare
the source's behaviour against the spec's demand. -/
def mkPolygonSpecChecked (segmentCount : ℕ)
    (outerRadius innerRadius caseHeight : ℚ) : Option PolygonSpec :=
  if 3 ≤ segmentCount ∧ 0 < innerRadius ∧ innerRadius < outerRadius ∧
      0 < caseHeight then
    some (mkPolygonSpec segmentCount outerRadius innerRadius caseHeight)
  else
    none

/-- C4 counterexample: the spec's validating constructor rejects
`segmentCount = 2`, but the construction the source performs accepts it
silently — no `ConfigurationError` exists anywhere in the source. -/
theorem polygonSpec_no_validation_cex :
    mkPolygonSpecChecked 2 3 (6/5) (3/2) = none ∧
    (mkPolygonSpec 2 3 (6/5) (3/2)).segmentCount = 2 := by
  constructor
  · rw [mkPolygonSpecChecked, if_neg]
    intro h
    exact absurd h.1 (by norm_num)
  · rfl

/-- C4 (amended): the source performs no construction-time validation at
all: any `segmentCount`, including `2`, is bound silently and the
geometry formulas evaluate on it as a degenerate polygon (the tray width
at inner radius `1.2` with two segments is `2 * 1.2 * sin(π/2) - 0.15 =
2.25`).  The spec's `ConfigurationError` does not exist in the source,
whose only instantiation uses `segmentCount = 7`. -/
theorem polygonSpec_construction_total (n : ℕ) (r ir ch : ℚ) :
    mkPolygonSpec n r ir ch = ⟨n, r, ir, ch⟩ ∧
    septagonCaseSpec.segmentCount = 7 ∧
    trayWidth (6/5) 2 = 9/4 := by
  refine ⟨rfl, rfl, ?_⟩
  unfold trayWidth chordWidthAtRadius angleStep
  have h : Real.pi * 2 / ((2 : ℕ) : ℝ) / 2 = Real.pi / 2 := by
    norm_num
  rw [h, Real.sin_pi_div_two]
  norm_num

theorem sin_seven_mul (x : ℝ) :
    Real.sin (7 * x) =
      7 * Real.sin x - 56 * Real.sin x ^ 3 + 112 * Real.sin x ^ 5 -
        64 * Real.sin x ^ 7 := by
  have hsplit : Real.sin (7 * x) =
      Real.sin (6 * x) * Real.cos x + Real.cos (6 * x) * Real.sin x := by
    rw [show (7 : ℝ) * x = 6 * x + x by ring, Real.sin_add]
  have hs6 : Real.sin (6 * x) = 3 * Real.sin (2 * x) - 4 * Real.sin (2 * x) ^ 3 := by
    rw [show (6 : ℝ) * x = 3 * (2 * x) by ring, Real.sin_three_mul]
  have hc6 : Real.cos (6 * x) = 4 * Real.cos (2 * x) ^ 3 - 3 * Real.cos (2 * x) := by
    rw [show (6 : ℝ) * x = 3 * (2 * x) by ring, Real.cos_three_mul]
  have hs2 : Real.sin (2 * x) = 2 * Real.sin x * Real.cos x := Real.sin_two_mul x
  have hc2 : Real.cos (2 * x) = 1 - 2 * Real.sin x ^ 2 := by
    rw [Real.cos_two_mul, Real.cos_sq']
    ring
  have hpyth : Real.cos x ^ 2 = 1 - Real.sin x ^ 2 := Real.cos_sq' x
  rw [hsplit, hs6, hc6, hs2, hc2]
  linear_combination (-32 * Real.sin x ^ 3 * Real.cos x ^ 2 + 6 * Real.sin x -
    32 * Real.sin x ^ 3 + 32 * Real.sin x ^ 5) * hpyth

theorem sin_pi_div_seven_pos : 0 < Real.sin (Real.pi / 7) :=
  Real.sin_pos_of_pos_of_lt_pi (by positivity)
    (div_lt_self Real.pi_pos (by norm_num))

theorem sin_pi_div_seven_poly :
    64 * Real.sin (Real.pi / 7) ^ 6 - 112 * Real.sin (Real.pi / 7) ^ 4 +
      56 * Real.sin (Real.pi / 7) ^ 2 - 7 = 0 := by
  have h := sin_seven_mul (Real.pi / 7)
  rw [show 7 * (Real.pi / 7) = Real.pi by ring, Real.sin_pi] at h
  have h2 : Real.sin (Real.pi / 7) *
      (64 * Real.sin (Real.pi / 7) ^ 6 - 112 * Real.sin (Real.pi / 7) ^ 4 +
        56 * Real.sin (Real.pi / 7) ^ 2 - 7) = 0 := by
    linear_combination h
  rcases mul_eq_zero.mp h2 with h3 | h3
  · exact absurd h3 (ne_of_gt sin_pi_div_seven_pos)
  · exact h3

theorem sin_pi_div_seven_bounds :
    0.43380 < Real.sin (Real.pi / 7) ∧ Real.sin (Real.pi / 7) < 0.43395 := by
  set s := Real.sin (Real.pi / 7) with hs_def
  have hx0 : 0 < Real.pi / 7 := by positivity
  have hx_hi : Real.pi / 7 < 0.448799 := by
    have h := Real.pi_lt_d6
    norm_num at h ⊢
    linarith
  have hx_lo : 0.4487988 < Real.pi / 7 := by
    have h := Real.pi_gt_d6
    norm_num at h ⊢
    linarith
  have hs_up : s < 0.448799 := lt_trans (Real.sin_lt hx0) hx_hi
  have hx3 : (Real.pi / 7) ^ 3 < 0.0903974 := by
    have h := pow_lt_pow_left₀ hx_hi hx0.le (three_ne_zero)
    have hc : (0.448799 : ℝ) ^ 3 < 0.0903974 := by norm_num
    linarith
  have hs_lo : 0.426199 < s := by
    have h := Real.sin_gt_sub_cube hx0 (by linarith : Real.pi / 7 ≤ 1)
    rw [← hs_def] at h
    linarith
  have hq := sin_pi_div_seven_poly
  rw [← hs_def] at hq
  constructor
  · by_contra hcon
    push_neg at hcon
    have ht_hi : s ^ 2 ≤ 0.1881825 := by nlinarith
    have ht_lo : 0.1816455 ≤ s ^ 2 := by nlinarith
    have h1 : (0 : ℝ) ≤ 0.1881825 - s ^ 2 := by linarith
    have h2 : (0 : ℝ) ≤ 64 * ((s ^ 2) ^ 2 + 0.1881825 * s ^ 2 + 0.1881825 ^ 2) -
        112 * (s ^ 2 + 0.1881825) + 56 := by nlinarith [sq_nonneg (s ^ 2)]
    nlinarith [mul_nonneg h1 h2]
  · by_contra hcon
    push_neg at hcon
    have ht_lo : 0.1883126 ≤ s ^ 2 := by nlinarith [sq_nonneg (s - 0.43395)]
    have ht_hi : s ^ 2 ≤ 0.2014206 := by nlinarith
    have h1 : (0 : ℝ) ≤ s ^ 2 - 0.1883126 := by linarith
    have h2 : (0 : ℝ) ≤ 64 * ((s ^ 2) ^ 2 + 0.1883126 * s ^ 2 + 0.1883126 ^ 2) -
        112 * (s ^ 2 + 0.1883126) + 56 := by nlinarith [sq_nonneg (s ^ 2)]
    nlinarith [mul_nonneg h1 h2]

theorem chordWidth_at_inner_radius :
    chordWidthAtRadius (6/5) 7 = 12 / 5 * Real.sin (Real.pi / 7) := by
  unfold chordWidthAtRadius angleStep
  have h : Real.pi * 2 / ((7 : ℕ) : ℝ) / 2 = Real.pi / 7 := by
    norm_num
    ring
  rw [h]
  ring

/-- C6 counterexample: `chordWidthAtRadius(1.2, 7) = 2.4 * sin(π/7)` lies
strictly below `1.0415`, so it differs from the spec's stated value
`1.0419` by more than `0.0004` — the spec's numeral is wrong at its own
displayed precision (the true value rounds to `1.0413`). -/
theorem chordWidth_value_cex :
    chordWidthAtRadius (6/5) 7 < 1.0415 ∧
    4 / 10000 < |chordWidthAtRadius (6/5) 7 - 1.0419| := by
  have h := chordWidth_at_inner_radius
  have hb := sin_pi_div_seven_bounds
  constructor
  · rw [h]; nlinarith [hb.2]
  · rw [h, abs_of_neg (by nlinarith [hb.2])]
    nlinarith [hb.2]

/-- C6 (amended): `chordWidthAtRadius(radius, segmentCount)` equals
`2 * radius * sin(π / segmentCount)`; the caller (the tray, source line
99) subtracts the clearance margin `0.15` from it to size the tray
width; and the concrete value at radius `1.2` with `7` segments is
`≈ 1.0413` (within `0.0002`), not `1.0419`. -/
theorem chordWidth_formula (r : ℝ) (n : ℕ) (hr : 0 < r) (hn : 3 ≤ n) :
    chordWidthAtRadius r n = 2 * r * Real.sin (Real.pi / n) ∧
    trayWidth r n = chordWidthAtRadius r n - 0.15 ∧
    |chordWidthAtRadius (6/5) 7 - 1.0413| < 0.0002 := by
  refine ⟨?_, rfl, ?_⟩
  · unfold chordWidthAtRadius angleStep
    have h : Real.pi * 2 / (n : ℝ) / 2 = Real.pi / n := by ring
    rw [h]
  · rw [chordWidth_at_inner_radius]
    have hb := sin_pi_div_seven_bounds
    rw [abs_lt]
    constructor
    · nlinarith [hb.1]
    · nlinarith [hb.2]

/-- Witness for `chordWidth_formula` at radius `1.2`, `7` segments. -/
theorem chordWidth_formula_witness :
    ((0 : ℝ) < 6/5 ∧ (3 : ℕ) ≤ 7) ∧
    (chordWidthAtRadius (6/5) 7 = 2 * (6/5) * Real.sin (Real.pi / (7 : ℕ)) ∧
      trayWidth (6/5) 7 = chordWidthAtRadius (6/5) 7 - 0.15 ∧
      |chordWidthAtRadius (6/5) 7 - 1.0413| < 0.0002) :=
  ⟨⟨by norm_num, by decide⟩, chordWidth_formula (6/5) 7 (by norm_num) (by decide)⟩

/-- A rendered position, as the source's `meshRef.current.position`. -/
structure Vec3 where
  x : ℝ
  y : ℝ
  z : ℝ

/-- How the per-frame callback re-derives the tray's current distance
from the rendered coordinates (source lines 114-116):
`Math.sqrt(currentX * currentX + currentZ * currentZ)`. -/
noncomputable def readDist (p : Vec3) : ℝ := Real.sqrt (p.x ^ 2 + p.z ^ 2)

/-- The real-valued linear interpolation `THREE.MathUtils.lerp` used by
the frame callback, over `ℝ` to combine with the trigonometry. -/
def lerpR (x y t : ℝ) : ℝ := (1 - t) * x + t * y

/-- One whole frame callback (source lines 110-122): read the distance
back from the rendered coordinates, interpolate it toward the target
with factor `delta * 8`, and write the new position on the face-angle
ray, leaving `y` untouched. -/
noncomputable def frameUpdate (faceAngle targetDist delta : ℝ) (p : Vec3) : Vec3 :=
  ⟨Real.cos faceAngle * lerpR (readDist p) targetDist (delta * 8),
    p.y,
    Real.sin faceAngle * lerpR (readDist p) targetDist (delta * 8)⟩

/-- The initial position of the tray mesh (source lines 136-140):
`(cos(faceAngle) * closedDist, height / 2, sin(faceAngle) * closedDist)`. -/
noncomputable def initialPosition (faceAngle closedDist height : ℝ) : Vec3 :=
  ⟨Real.cos faceAngle * closedDist, height / 2, Real.sin faceAngle * closedDist⟩

theorem readDist_ray (a d w : ℝ) :
    readDist ⟨Real.cos a * d, w, Real.sin a * d⟩ = |d| := by
  unfold readDist
  have hpyth := Real.sin_sq_add_cos_sq a
  have h : (Real.cos a * d) ^ 2 + (Real.sin a * d) ^ 2 = d ^ 2 := by
    linear_combination d ^ 2 * hpyth
  simp only
  rw [h, Real.sqrt_sq_eq_abs]

/-- C9: the initial rendered position encodes exactly `closedDist` (the
seeding the spec requires), and the distance moved by one frame callback
is bounded by `8 * |delta| * gap` — it vanishes as the frame time does,
so the distance never jumps discontinuously between frames. -/
theorem initial_seed_and_no_jump (a c w : ℝ) (hc : 0 ≤ c) :
    readDist (initialPosition a c w) = c ∧
    ∀ (p : Vec3) (targetDist delta : ℝ),
      |readDist (frameUpdate a targetDist delta p) - readDist p| ≤
        8 * |delta| * |targetDist - readDist p| := by
  constructor
  · unfold initialPosition
    rw [readDist_ray, abs_of_nonneg hc]
  · intro p targetDist delta
    have hcur : 0 ≤ readDist p := Real.sqrt_nonneg _
    have hread : readDist (frameUpdate a targetDist delta p) =
        |lerpR (readDist p) targetDist (delta * 8)| := by
      unfold frameUpdate
      rw [readDist_ray]
    rw [hread]
    have h0 := abs_abs_sub_abs_le_abs_sub
      (lerpR (readDist p) targetDist (delta * 8)) (readDist p)
    rw [abs_of_nonneg hcur] at h0
    have step2 : |lerpR (readDist p) targetDist (delta * 8) - readDist p| =
        8 * |delta| * |targetDist - readDist p| := by
      have h : lerpR (readDist p) targetDist (delta * 8) - readDist p =
          (delta * 8) * (targetDist - readDist p) := by
        unfold lerpR
        ring
      rw [h, abs_mul, abs_mul, abs_of_nonneg (by norm_num : (0 : ℝ) ≤ 8)]
      ring
    linarith [h0, step2]

/-- Witness for `initial_seed_and_no_jump` at the tray's face angle
`faceCenterAngle 7 3` and closed distance `2` (the value
`innerRadius + length/2 + 0.1` takes in the source's configuration). -/
theorem initial_seed_and_no_jump_witness :
    (0 : ℝ) ≤ 2 ∧
    readDist (initialPosition (faceCenterAngle 7 3) 2 (3/2)) = 2 :=
  ⟨by norm_num,
    (initial_seed_and_no_jump (faceCenterAngle 7 3) 2 (3/2) (by norm_num)).1⟩

/-- C10: after a frame callback the tray position lies exactly on the
face-angle ray — `x = cos(a) * d`, `z = sin(a) * d` for the interpolated
`d` — with `y` untouched; the distance re-derived from the coordinates
on the next frame is `|d|`, hence always non-negative, so a negative
interpolated distance is read back reflected onto the positive ray. -/
theorem frame_ray_readback (a targetDist delta : ℝ) (p : Vec3) :
    (frameUpdate a targetDist delta p).y = p.y ∧
    (frameUpdate a targetDist delta p).x =
      Real.cos a * lerpR (readDist p) targetDist (delta * 8) ∧
    (frameUpdate a targetDist delta p).z =
      Real.sin a * lerpR (readDist p) targetDist (delta * 8) ∧
    readDist (frameUpdate a targetDist delta p) =
      |lerpR (readDist p) targetDist (delta * 8)| ∧
    0 ≤ readDist (frameUpdate a targetDist delta p) ∧
    (lerpR (readDist p) targetDist (delta * 8) < 0 →
      readDist (frameUpdate a targetDist delta p) =
        -lerpR (readDist p) targetDist (delta * 8)) := by
  have hread : readDist (frameUpdate a targetDist delta p) =
      |lerpR (readDist p) targetDist (delta * 8)| := by
    unfold frameUpdate
    rw [readDist_ray]
  refine ⟨rfl, rfl, rfl, hread, ?_, ?_⟩
  · rw [hread]
    exact abs_nonneg _
  · intro hneg
    rw [hread, abs_of_neg hneg]

/-- Witness for `frame_ray_readback`: from rendered distance `2.6` toward
target `1.1` with `delta = 0.25` (factor `2`), the interpolation lands
at `-0.4`, and the re-derived distance is `0.4`. -/
theorem frame_ray_readback_witness :
    lerpR (13/5) (11/10) ((1/4) * 8) < 0 ∧
    readDist (frameUpdate 0 (11/10) (1/4) ⟨13/5, 3/4, 0⟩) = 2/5 := by
  have hp : readDist (⟨13/5, 3/4, 0⟩ : Vec3) = 13/5 := by
    unfold readDist
    simp only
    rw [show (13/5 : ℝ) ^ 2 + (0 : ℝ) ^ 2 = (13/5) ^ 2 by ring,
      Real.sqrt_sq (by norm_num : (0 : ℝ) ≤ 13/5)]
  have h := frame_ray_readback 0 (11/10) (1/4) (⟨13/5, 3/4, 0⟩ : Vec3)
  have hneg : lerpR (readDist (⟨13/5, 3/4, 0⟩ : Vec3)) (11/10) ((1/4) * 8) < 0 := by
    rw [hp]
    norm_num [lerpR]
  have hneg13 : lerpR (13/5) (11/10) ((1/4) * 8) < 0 := by rw [← hp]; exact hneg
  refine ⟨hneg13, ?_⟩
  have hr := h.2.2.2.2.2 hneg
  rw [hr, hp]
  norm_num [lerpR]

/-- Modelled from the spec: the clock display strings.  The source
(lines 14-22) delegates digit production to the platform locale library
(`toLocaleTimeString` / `toLocaleDateString` with `'en-US'`,
`hour12: false`, 2-digit hour/minute/second, long weekday, short month,
numeric day), which is outside this repository; its output shape is
modelled here from the spec's display contract.  Full en-US weekday
names, `0 = Sunday`. -/
def weekdayName : ℕ → String
  | 0 => "Sunday"
  | 1 => "Monday"
  | 2 => "Tuesday"
  | 3 => "Wednesday"
  | 4 => "Thursday"
  | 5 => "Friday"
  | _ => "Saturday"

/-- Modelled from the spec: abbreviated en-US month names, `0 = Jan`. -/
def monthAbbrev : ℕ → String
  | 0 => "Jan"
  | 1 => "Feb"
  | 2 => "Mar"
  | 3 => "Apr"
  | 4 => "May"
  | 5 => "Jun"
  | 6 => "Jul"
  | 7 => "Aug"
  | 8 => "Sep"
  | 9 => "Oct"
  | 10 => "Nov"
  | _ => "Dec"

/-- Modelled from the spec: a 2-digit zero-padded decimal field. -/
def pad2 (n : ℕ) : String := if n < 10 then "0" ++ Nat.repr n else Nat.repr n

/-- The instant the clock samples once per tick, broken into the fields
the display consumes. -/
structure ClockInstant where
  weekday : ℕ
  month : ℕ
  day : ℕ
  hour : ℕ
  minute : ℕ
  second : ℕ

/-- The three display strings recomputed each tick (spec data model). -/
structure ClockSnapshot where
  dayName : String
  timeString : String
  dateString : String

/-- Modelled from the spec: the formatting the source requests from the
locale library — strictly zero-padded 24-hour `HH:MM:SS`, the full
weekday name, and abbreviated month plus numeric day with no year. -/
def formatClock (t : ClockInstant) : ClockSnapshot :=
  ⟨weekdayName t.weekday,
    pad2 t.hour ++ ":" ++ pad2 t.minute ++ ":" ++ pad2 t.second,
    monthAbbrev t.month ++ " " ++ Nat.repr t.day⟩

theorem pad2_length : ∀ n < 100, (pad2 n).length = 2 := by decide

/-- C8: for every valid instant the 24-hour time string is strictly
zero-padded `HH:MM:SS` (eight characters), the day name is the full
en-US weekday name, and the date string is the abbreviated month plus
the numeric day with no year; on a Saturday at 03:05:09 the snapshot is
`dayName = "Saturday"`, `timeString = "03:05:09"`. -/
theorem clock_format_contract (t : ClockInstant)
    (hh : t.hour < 24) (hm : t.minute < 60) (hs : t.second < 60) :
    (formatClock t).timeString =
      pad2 t.hour ++ ":" ++ pad2 t.minute ++ ":" ++ pad2 t.second ∧
    (formatClock t).timeString.length = 8 ∧
    (formatClock t).dayName = weekdayName t.weekday ∧
    (formatClock t).dateString = monthAbbrev t.month ++ " " ++ Nat.repr t.day ∧
    (formatClock ⟨6, 9, 11, 3, 5, 9⟩).dayName = "Saturday" ∧
    (formatClock ⟨6, 9, 11, 3, 5, 9⟩).timeString = "03:05:09" := by
  have h1 := pad2_length t.hour (by omega)
  have h2 := pad2_length t.minute (by omega)
  have h3 := pad2_length t.second (by omega)
  refine ⟨rfl, ?_, rfl, rfl, by decide, by decide⟩
  have hc : (":" : String).length = 1 := rfl
  simp [formatClock, String.length_append, h1, h2, h3, hc]

/-- Witness for `clock_format_contract` at a Saturday (weekday 6),
October 11, 03:05:09. -/
theorem clock_format_contract_witness :
    ((3 : ℕ) < 24 ∧ (5 : ℕ) < 60 ∧ (9 : ℕ) < 60) ∧
    ((formatClock ⟨6, 9, 11, 3, 5, 9⟩).timeString =
        pad2 3 ++ ":" ++ pad2 5 ++ ":" ++ pad2 9 ∧
      (formatClock ⟨6, 9, 11, 3, 5, 9⟩).timeString.length = 8 ∧
      (formatClock ⟨6, 9, 11, 3, 5, 9⟩).dayName = weekdayName 6 ∧
      (formatClock ⟨6, 9, 11, 3, 5, 9⟩).dateString =
        monthAbbrev 9 ++ " " ++ Nat.repr 11 ∧
      (formatClock ⟨6, 9, 11, 3, 5, 9⟩).dayName = "Saturday" ∧
      (formatClock ⟨6, 9, 11, 3, 5, 9⟩).timeString = "03:05:09") :=
  ⟨⟨by decide, by decide, by decide⟩,
    clock_format_contract ⟨6, 9, 11, 3, 5, 9⟩ (by decide) (by decide) (by decide)⟩

end Septagon3D
